import Mathlib

/-!
Shallow embedding of the status-tracking and alerting engine of the
chub-status-lite repository (src/cogs/status.py and src/utils/chub_api.py),
together with theorems settling the specification claims about it.

Health values are the raw strings used by the source ("green", "yellow",
"orange", "red", ...); the spec's 4-value HealthLevel lattice is embedded via
`HealthLevel.toHealthStr`.  Timestamps are embedded as integers, rate fields
as rationals.
-/

/-- The spec's 4-value health lattice (§3 of the spec). -/
inductive HealthLevel : Type
  | healthy
  | degraded
  | down
  | unknown
deriving DecidableEq, Repr

/-- Mapping of the spec's lattice onto the raw health strings used by the
source: Healthy→green, Degraded→yellow, Down→red, Unknown→unknown. -/
def HealthLevel.toHealthStr : HealthLevel → String
  | .healthy => "green"
  | .degraded => "yellow"
  | .down => "red"
  | .unknown => "unknown"

/-- src/cogs/status.py line 21: down threshold (in Chub API updates). -/
def DOWN_THRESHOLD : Nat := 2

/-- src/cogs/status.py line 22: recovery threshold. -/
def RECOVERY_THRESHOLD : Nat := 3

/-- src/utils/chub_api.py line 14: Chub's model order. -/
def MODEL_ORDER : List String :=
  ["asha", "soji", "mobile", "mistral", "mixtral", "mythomax"]

/-- src/cogs/status.py lines 25-30: alert state for a single model
(per guild).  `consecutive_red` / `consecutive_green` are the spec's
`consecutive_down` / `consecutive_healthy`; `is_notified` is `is_active`. -/
structure ModelAlertState : Type where
  consecutive_red : Nat
  consecutive_green : Nat
  is_notified : Bool
deriving DecidableEq, Repr

/-- Initial alert state: both counters 0, not notified (dataclass defaults,
src/cogs/status.py lines 25-30). -/
def ModelAlertState.initial : ModelAlertState := ⟨0, 0, false⟩

/-- Events raised by the alert machine (the appends to `models_now_down` /
`models_now_recovered` in `_process_guild_notifications`). -/
inductive AlertEvent : Type
  | entityDown
  | entityRecovered
deriving DecidableEq, Repr

/-- src/utils/chub_api.py lines 17-24: status information for a single model. -/
structure ModelStatus : Type where
  name : String
  health : String
  avg_latency : Int
  timeout_pct : ℚ
  fail_pct : ℚ
deriving DecidableEq, Repr

/-- src/utils/chub_api.py lines 32-38: a complete status snapshot
(the `raw_data` field is irrelevant to the claims and omitted). -/
structure ChubStatus : Type where
  timestamp : Int
  api_health : String
  models : List ModelStatus
deriving DecidableEq, Repr

/-- One step of the per-(guild, model) alert machine: the body of the
`for model in status.models` loop of `_process_guild_notifications`
(src/cogs/status.py lines 392-422), for one model's health sample.
Returns the updated state and the event appended for this model, if any. -/
def stepAlert (state : ModelAlertState) (health : String) :
    ModelAlertState × Option AlertEvent :=
  if health = "red" then
    let r := state.consecutive_red + 1
    if DOWN_THRESHOLD ≤ r ∧ state.is_notified = false then
      (⟨r, 0, true⟩, some AlertEvent.entityDown)
    else
      (⟨r, 0, state.is_notified⟩, none)
  else if health = "green" then
    if state.is_notified then
      let g := state.consecutive_green + 1
      if RECOVERY_THRESHOLD ≤ g then
        (⟨0, 0, false⟩, some AlertEvent.entityRecovered)
      else
        (⟨0, g, state.is_notified⟩, none)
    else
      (⟨0, state.consecutive_green, state.is_notified⟩, none)
  else
    (state, none)

/-- Folding the alert machine over a sequence of raw health samples. -/
def runAlert (state : ModelAlertState) (hs : List String) : ModelAlertState :=
  hs.foldl (fun st h => (stepAlert st h).1) state

/-- Folding the alert machine while recording the event (if any) raised at
each step, in order. -/
def runAlertTrace (state : ModelAlertState) (hs : List String) :
    ModelAlertState × List (Option AlertEvent) :=
  hs.foldl (fun acc h => ((stepAlert acc.1 h).1, acc.2 ++ [(stepAlert acc.1 h).2]))
    (state, [])

/-- One alert-machine step on a spec-level HealthLevel sample. -/
def stepAlertHL (state : ModelAlertState) (l : HealthLevel) :
    ModelAlertState × Option AlertEvent :=
  stepAlert state l.toHealthStr

/-- Folding the alert machine over a sequence of HealthLevel samples. -/
def runAlertHL (state : ModelAlertState) (w : List HealthLevel) : ModelAlertState :=
  runAlert state (w.map HealthLevel.toHealthStr)

-- Step-characterisation lemmas for `stepAlert`, used throughout.

theorem stepAlert_red_fire (s : ModelAlertState)
    (h : DOWN_THRESHOLD ≤ s.consecutive_red + 1 ∧ s.is_notified = false) :
    stepAlert s "red" =
      (⟨s.consecutive_red + 1, 0, true⟩, some AlertEvent.entityDown) := by
  simp only [stepAlert, reduceIte, if_pos h]

theorem stepAlert_red_nofire (s : ModelAlertState)
    (h : ¬(DOWN_THRESHOLD ≤ s.consecutive_red + 1 ∧ s.is_notified = false)) :
    stepAlert s "red" = (⟨s.consecutive_red + 1, 0, s.is_notified⟩, none) := by
  simp only [stepAlert, reduceIte, if_neg h]

theorem stepAlert_green_inactive (s : ModelAlertState)
    (h : s.is_notified = false) :
    stepAlert s "green" = (⟨0, s.consecutive_green, s.is_notified⟩, none) := by
  simp only [stepAlert, String.reduceEq, reduceIte, h, Bool.false_eq_true, ite_false]

theorem stepAlert_green_fire (s : ModelAlertState)
    (h : s.is_notified = true)
    (h2 : RECOVERY_THRESHOLD ≤ s.consecutive_green + 1) :
    stepAlert s "green" = (⟨0, 0, false⟩, some AlertEvent.entityRecovered) := by
  simp only [stepAlert, String.reduceEq, reduceIte, h, ite_true, if_pos h2]

theorem stepAlert_green_count (s : ModelAlertState)
    (h : s.is_notified = true)
    (h2 : ¬ RECOVERY_THRESHOLD ≤ s.consecutive_green + 1) :
    stepAlert s "green" =
      (⟨0, s.consecutive_green + 1, s.is_notified⟩, none) := by
  simp only [stepAlert, String.reduceEq, reduceIte, h, ite_true, if_neg h2]

theorem stepAlert_neutral (s : ModelAlertState) (health : String)
    (h1 : health ≠ "red") (h2 : health ≠ "green") :
    stepAlert s health = (s, none) := by
  simp only [stepAlert, if_neg h1, if_neg h2]

theorem runAlert_append (s : ModelAlertState) (hs : List String) (h : String) :
    runAlert s (hs ++ [h]) = (stepAlert (runAlert s hs) h).1 := by
  simp [runAlert]

theorem runAlertHL_append (s : ModelAlertState) (w : List HealthLevel)
    (x : HealthLevel) :
    runAlertHL s (w ++ [x]) = (stepAlertHL (runAlertHL s w) x).1 := by
  simp [runAlertHL, stepAlertHL, runAlert_append]

/-- The effect of appending one element to a `deque(maxlen := cap)`
(src/cogs/status.py lines 57-58 and 64-68): the element is appended and the
oldest entries are evicted so that at most `cap` remain. -/
def pushMax (cap : Nat) (l : List String) (x : String) : List String :=
  (l ++ [x]).drop (l.length + 1 - cap)

/-- src/cogs/status.py lines 33-40: rolling history of status snapshots.
The `history` dict is embedded as a function to `Option`; `none` means the
model has no buffer yet. -/
structure StatusHistory : Type where
  max_depth : Nat
  history : String → Option (List String)
  last_timestamp : Option Int

/-- A fresh `StatusHistory` (src/cogs/status.py lines 36-40): empty dict,
no last timestamp. -/
def StatusHistory.mk0 (max_depth : Nat) : StatusHistory :=
  ⟨max_depth, fun _ => none, none⟩

/-- The per-model body of the loop in `add_snapshot` (src/cogs/status.py
lines 55-58): create the model's deque if absent, then append its health. -/
def addModelHealth (cap : Nat) (hist : String → Option (List String))
    (name health : String) : String → Option (List String) :=
  fun n =>
    if n = name then some (pushMax cap ((hist name).getD []) health) else hist n

/-- The whole `for model in status.models` loop of `add_snapshot`. -/
def ingestModels (cap : Nat) (hist : String → Option (List String))
    (models : List ModelStatus) : String → Option (List String) :=
  models.foldl (fun h m => addModelHealth cap h m.name m.health) hist

/-- src/cogs/status.py lines 42-60: `StatusHistory.add_snapshot`.  Returns
the `bool` result paired with the updated tracker.  The snapshot is rejected
(False, no mutation) when a last timestamp exists and the snapshot's
timestamp is not strictly newer. -/
def StatusHistory.add_snapshot (h : StatusHistory) (status : ChubStatus) :
    Bool × StatusHistory :=
  match h.last_timestamp with
  | some t =>
    if status.timestamp ≤ t then (false, h)
    else
      (true, ⟨h.max_depth, ingestModels h.max_depth h.history status.models,
        some status.timestamp⟩)
  | none =>
    (true, ⟨h.max_depth, ingestModels h.max_depth h.history status.models,
      some status.timestamp⟩)

/-- src/cogs/status.py lines 62-68: `StatusHistory.load_from_list` — seed one
model's buffer from persisted samples by appending them in order; the last
timestamp is not touched. -/
def StatusHistory.load_from_list (h : StatusHistory) (model_name : String)
    (health_list : List String) : StatusHistory :=
  ⟨h.max_depth,
    fun n =>
      if n = model_name then
        some (health_list.foldl (pushMax h.max_depth)
          ((h.history model_name).getD []))
      else h.history n,
    h.last_timestamp⟩

/-- An operation applied to the tracker: a live ingestion or a startup
restore. -/
inductive HistOp : Type
  | ingest (status : ChubStatus)
  | restore (model_name : String) (health_list : List String)

/-- Apply one tracker operation. -/
def applyHistOp (h : StatusHistory) : HistOp → StatusHistory
  | .ingest status => (h.add_snapshot status).2
  | .restore n hs => h.load_from_list n hs

/-- Apply a sequence of tracker operations. -/
def applyHistOps (h : StatusHistory) (ops : List HistOp) : StatusHistory :=
  ops.foldl applyHistOp h

/-- Fold a sequence of live ingestions into the tracker. -/
def runIngest (h : StatusHistory) (sts : List ChubStatus) : StatusHistory :=
  sts.foldl (fun h st => (h.add_snapshot st).2) h

/-- `acceptsAll t sts` holds when, starting with last-seen timestamp `t`,
every snapshot of `sts` in turn is strictly newer than its predecessor (so
every ingestion is accepted by the timestamp gate). -/
def acceptsAll : Option Int → List ChubStatus → Bool
  | _, [] => true
  | none, st :: rest => acceptsAll (some st.timestamp) rest
  | some t, st :: rest =>
    decide (t < st.timestamp) && acceptsAll (some st.timestamp) rest

/-- The health samples that a list of model records contributes to entity
`e`'s buffer, in order. -/
def entityHealths (e : String) (models : List ModelStatus) : List String :=
  (models.filter (fun m => m.name = e)).map ModelStatus.health

/-- All health samples contributed to entity `e`'s buffer by a sequence of
snapshots, in arrival order. -/
def entityHealthsAll (e : String) (sts : List ChubStatus) : List String :=
  (sts.map (fun st => entityHealths e st.models)).flatten

/-- src/cogs/status.py lines 380-431: the per-model loop of
`_process_guild_notifications` for one guild and one snapshot.  The alert
dict for the guild is embedded as a total function (absent keys carry the
lazily-created fresh state).  Returns the updated states together with
`models_now_down` and `models_now_recovered`, exactly as collected by the
loop. -/
def processSnapshot (states : String → ModelAlertState)
    (models : List ModelStatus) :
    (String → ModelAlertState) × List String × List String :=
  models.foldl
    (fun acc m =>
      let r := stepAlert (acc.1 m.name) m.health
      (fun n => if n = m.name then r.1 else acc.1 n,
       acc.2.1 ++ (if r.2 = some AlertEvent.entityDown then [m.name] else []),
       acc.2.2 ++ (if r.2 = some AlertEvent.entityRecovered then [m.name] else [])))
    (states, [], [])

/-- A batched notification handed to the external dispatch collaborator
(the two `channel.send` calls of src/cogs/status.py lines 443-473). -/
inductive GuildNotification : Type
  | down (names : List String)
  | recovered (names : List String)
deriving DecidableEq, Repr

/-- src/cogs/status.py lines 443-473: after the per-model loop, one batched
down notification is sent when `models_now_down` is nonempty, then one
batched recovery notification when `models_now_recovered` is nonempty. -/
def dispatchNotifications (downs recs : List String) : List GuildNotification :=
  (if downs = [] then [] else [GuildNotification.down downs]) ++
    (if recs = [] then [] else [GuildNotification.recovered recs])

/-- Recogniser for batched down notifications. -/
def GuildNotification.isDown : GuildNotification → Bool
  | .down _ => true
  | .recovered _ => false

/-- Recogniser for batched recovery notifications. -/
def GuildNotification.isRecovered : GuildNotification → Bool
  | .down _ => false
  | .recovered _ => true

/-- src/utils/chub_api.py: the value found under one model key of the
`inference` dict (only the fields the parser reads). -/
structure RawModel : Type where
  health : Option String
  avg : Option Int
  timeout : Option ℚ
  fail : Option ℚ

/-- One record of the payload's `history` array (only the fields read by
`_parse_status`).  An `inference` value of `some none` stands for a present
key whose value is not a dict (`isinstance(model_data, dict)` fails). -/
structure RawEntry : Type where
  updated : Option String
  api : Option String
  inference : String → Option (Option RawModel)

/-- The raw payload: `data.get('history', [])` reads an optional array. -/
structure RawData : Type where
  history : Option (List RawEntry)

/-- src/utils/chub_api.py lines 132-138: rate fields default to 0, are falsy
at 0, and are otherwise scaled from 0-1 decimals to 0-100 percentages. -/
def ratePct (raw : Option ℚ) : ℚ :=
  let q := raw.getD 0
  if q ≠ 0 then q * 100 else 0

/-- src/utils/chub_api.py lines 103-157: `_parse_status`.  The call to
`datetime.fromisoformat` is abstracted as the parameter `parseTs` (returning
`none` when the library call raises `ValueError`), and `datetime.utcnow()` as
the parameter `now`. -/
def parseStatus (parseTs : String → Option Int) (now : Int) (data : RawData) :
    Option ChubStatus :=
  match data.history.getD [] with
  | [] => none
  | latest :: _ =>
    let timestamp_str := latest.updated.getD ""
    let timestamp :=
      match parseTs (timestamp_str.replace "Z" "+00:00") with
      | some t => t
      | none => now
    let api_health := latest.api.getD "unknown"
    let models := MODEL_ORDER.foldl
      (fun acc name =>
        match latest.inference name with
        | some (some md) =>
          acc ++ [⟨name, md.health.getD "unknown", md.avg.getD 0,
            ratePct md.timeout, ratePct md.fail⟩]
        | _ => acc)
      []
    some ⟨timestamp, api_health, models⟩

/-- Whether a model key is present in the `inference` dict with a dict value
(the condition under which `_parse_status` emits a `ModelStatus`). -/
def hasDictEntry (v : Option (Option RawModel)) : Bool :=
  match v with
  | some (some _) => true
  | _ => false

-- Preservation of the counter-exclusivity invariant by a single step.

theorem stepAlert_excl (s : ModelAlertState) (x : String)
    (h : s.consecutive_red = 0 ∨ s.consecutive_green = 0) :
    (stepAlert s x).1.consecutive_red = 0 ∨
      (stepAlert s x).1.consecutive_green = 0 := by
  by_cases hr : x = "red"
  · subst hr
    by_cases hc : DOWN_THRESHOLD ≤ s.consecutive_red + 1 ∧ s.is_notified = false
    · rw [stepAlert_red_fire s hc]; exact Or.inr rfl
    · rw [stepAlert_red_nofire s hc]; exact Or.inr rfl
  · by_cases hg : x = "green"
    · subst hg
      cases hn : s.is_notified with
      | false => rw [stepAlert_green_inactive s hn]; exact Or.inl rfl
      | true =>
        by_cases hc : RECOVERY_THRESHOLD ≤ s.consecutive_green + 1
        · rw [stepAlert_green_fire s hn hc]; exact Or.inl rfl
        · rw [stepAlert_green_count s hn hc]; exact Or.inl rfl
    · rw [stepAlert_neutral s x hr hg]; exact h

theorem runAlert_excl (hs : List String) (s : ModelAlertState)
    (h : s.consecutive_red = 0 ∨ s.consecutive_green = 0) :
    (runAlert s hs).consecutive_red = 0 ∨
      (runAlert s hs).consecutive_green = 0 := by
  induction hs generalizing s with
  | nil => exact h
  | cons x rest ih => exact ih (stepAlert s x).1 (stepAlert_excl s x h)

/-- C5: in every alert state reachable from the initial state by processing
any sequence of HealthLevel samples, the two hysteresis counters are mutually
exclusive: a positive `consecutive_red` (the spec's `consecutive_down`)
forces `consecutive_green` (`consecutive_healthy`) to be zero, and vice
versa. -/
theorem alert_counters_mutually_exclusive (w : List HealthLevel) :
    (0 < (runAlertHL ModelAlertState.initial w).consecutive_red →
      (runAlertHL ModelAlertState.initial w).consecutive_green = 0) ∧
    (0 < (runAlertHL ModelAlertState.initial w).consecutive_green →
      (runAlertHL ModelAlertState.initial w).consecutive_red = 0) := by
  have h : (runAlertHL ModelAlertState.initial w).consecutive_red = 0 ∨
      (runAlertHL ModelAlertState.initial w).consecutive_green = 0 :=
    runAlert_excl (w.map HealthLevel.toHealthStr)
      ModelAlertState.initial (Or.inl rfl)
  constructor <;> intro hpos <;> rcases h with h | h <;> omega

/-- Witness for C5 at the concrete sample sequence `[Down]`. -/
theorem alert_counters_mutually_exclusive_witness :
    (runAlertHL ModelAlertState.initial [HealthLevel.down]).consecutive_green
      = 0 :=
  (alert_counters_mutually_exclusive [HealthLevel.down]).1 (by decide)

/-- C2: the per-sample transition table of the alert machine.  A `Down`
sample increments `consecutive_red` and zeroes `consecutive_green`, raising
`EntityDown` (and setting `is_notified`) exactly when the incremented counter
has reached `DOWN_THRESHOLD` while not yet notified.  A `Healthy` sample
zeroes `consecutive_red`; while not notified the green counter is unchanged
and no event fires, while notified the incremented green counter raises
`EntityRecovered` (clearing `is_notified` and the counter) exactly when it
reaches `RECOVERY_THRESHOLD`.  Concretely, with the source thresholds 2/3,
the sequence Down, Down, Healthy, Healthy, Healthy from the initial state
raises `EntityDown` exactly at the second Down and `EntityRecovered` exactly
at the third Healthy, with `is_notified` true and `consecutive_green = 2`
after the second Healthy and both counters 0 at the end. -/
theorem alert_transition_table :
    (∀ s : ModelAlertState,
      (stepAlertHL s HealthLevel.down).1.consecutive_red
          = s.consecutive_red + 1 ∧
      (stepAlertHL s HealthLevel.down).1.consecutive_green = 0 ∧
      ((stepAlertHL s HealthLevel.down).2 = some AlertEvent.entityDown ↔
        DOWN_THRESHOLD ≤ s.consecutive_red + 1 ∧ s.is_notified = false) ∧
      (stepAlertHL s HealthLevel.down).1.is_notified
          = (s.is_notified || decide (DOWN_THRESHOLD ≤ s.consecutive_red + 1))) ∧
    (∀ s : ModelAlertState,
      (stepAlertHL s HealthLevel.healthy).1.consecutive_red = 0 ∧
      (s.is_notified = false →
        (stepAlertHL s HealthLevel.healthy).1.consecutive_green
            = s.consecutive_green ∧
        (stepAlertHL s HealthLevel.healthy).1.is_notified = false ∧
        (stepAlertHL s HealthLevel.healthy).2 = none) ∧
      (s.is_notified = true →
        ((stepAlertHL s HealthLevel.healthy).2
            = some AlertEvent.entityRecovered ↔
          RECOVERY_THRESHOLD ≤ s.consecutive_green + 1) ∧
        (RECOVERY_THRESHOLD ≤ s.consecutive_green + 1 →
          (stepAlertHL s HealthLevel.healthy).1 = ⟨0, 0, false⟩) ∧
        (¬ RECOVERY_THRESHOLD ≤ s.consecutive_green + 1 →
          (stepAlertHL s HealthLevel.healthy).1
            = ⟨0, s.consecutive_green + 1, true⟩))) ∧
    (runAlertTrace ModelAlertState.initial
        ([HealthLevel.down, HealthLevel.down, HealthLevel.healthy,
          HealthLevel.healthy, HealthLevel.healthy].map HealthLevel.toHealthStr)).2
      = [none, some AlertEvent.entityDown, none, none,
          some AlertEvent.entityRecovered] ∧
    runAlertHL ModelAlertState.initial
        [HealthLevel.down, HealthLevel.down] = ⟨2, 0, true⟩ ∧
    runAlertHL ModelAlertState.initial
        [HealthLevel.down, HealthLevel.down, HealthLevel.healthy,
          HealthLevel.healthy] = ⟨0, 2, true⟩ ∧
    runAlertHL ModelAlertState.initial
        [HealthLevel.down, HealthLevel.down, HealthLevel.healthy,
          HealthLevel.healthy, HealthLevel.healthy] = ⟨0, 0, false⟩ := by
  refine ⟨?_, ?_, by decide, by decide, by decide, by decide⟩
  · intro s
    show (stepAlert s "red").1.consecutive_red = _ ∧ _
    by_cases hc : DOWN_THRESHOLD ≤ s.consecutive_red + 1 ∧ s.is_notified = false
    · rw [show stepAlertHL s HealthLevel.down = stepAlert s "red" from rfl,
        stepAlert_red_fire s hc]
      simp [hc.1, hc.2]
    · rw [show stepAlertHL s HealthLevel.down = stepAlert s "red" from rfl,
        stepAlert_red_nofire s hc]
      refine ⟨rfl, rfl, by simp [hc], ?_⟩
      cases hn : s.is_notified with
      | true => simp
      | false =>
        have : ¬ DOWN_THRESHOLD ≤ s.consecutive_red + 1 := fun hd => hc ⟨hd, hn⟩
        simp [this]
  · intro s
    rw [show stepAlertHL s HealthLevel.healthy = stepAlert s "green" from rfl]
    cases hn : s.is_notified with
    | false =>
      rw [stepAlert_green_inactive s hn]
      exact ⟨rfl, fun _ => ⟨rfl, hn, rfl⟩, fun hco => by simp at hco⟩
    | true =>
      refine ⟨?_, fun hco => by simp at hco,
        fun _ => ⟨?_, fun hc => ?_, fun hc => ?_⟩⟩
      · by_cases hc : RECOVERY_THRESHOLD ≤ s.consecutive_green + 1
        · rw [stepAlert_green_fire s hn hc]
        · rw [stepAlert_green_count s hn hc]
      · by_cases hc : RECOVERY_THRESHOLD ≤ s.consecutive_green + 1
        · rw [stepAlert_green_fire s hn hc]
          simp [hc]
        · rw [stepAlert_green_count s hn hc]
          simp [hc]
      · rw [stepAlert_green_fire s hn hc]
      · rw [stepAlert_green_count s hn hc, hn]

/-- C3 counterexample: feeding Down, Down from the initial state makes the
machine fire `EntityDown` on the second sample, yet immediately after that
transition `consecutive_red` (the spec's `consecutive_down`) is 2, not 0 —
refuting "both counters are 0" on the `Inactive → Active` transition. -/
theorem alert_counters_reset_on_fire_cex :
    (runAlertTrace ModelAlertState.initial
        ([HealthLevel.down, HealthLevel.down].map HealthLevel.toHealthStr)).2
      = [none, some AlertEvent.entityDown] ∧
    (runAlertTrace ModelAlertState.initial
        ([HealthLevel.down, HealthLevel.down].map HealthLevel.toHealthStr)).1.consecutive_red
      = 2 := by
  decide

/-- C3 amended: on the `Active → Inactive` transition (`EntityRecovered`)
both counters are 0 immediately afterwards; on the `Inactive → Active`
transition (`EntityDown`) only `consecutive_green` is 0, while
`consecutive_red` is the incremented count, which is at least
`DOWN_THRESHOLD` (not 0). -/
theorem alert_counters_after_fire (s : ModelAlertState) :
    ((stepAlert s "red").2 = some AlertEvent.entityDown →
      (stepAlert s "red").1.consecutive_green = 0 ∧
      (stepAlert s "red").1.consecutive_red = s.consecutive_red + 1 ∧
      DOWN_THRESHOLD ≤ (stepAlert s "red").1.consecutive_red) ∧
    ((stepAlert s "green").2 = some AlertEvent.entityRecovered →
      (stepAlert s "green").1.consecutive_red = 0 ∧
      (stepAlert s "green").1.consecutive_green = 0) := by
  constructor
  · intro hev
    by_cases hc : DOWN_THRESHOLD ≤ s.consecutive_red + 1 ∧ s.is_notified = false
    · rw [stepAlert_red_fire s hc]
      exact ⟨rfl, rfl, hc.1⟩
    · rw [stepAlert_red_nofire s hc] at hev
      cases hev
  · intro hev
    cases hn : s.is_notified with
    | false => rw [stepAlert_green_inactive s hn] at hev; cases hev
    | true =>
      by_cases hc : RECOVERY_THRESHOLD ≤ s.consecutive_green + 1
      · rw [stepAlert_green_fire s hn hc]
        exact ⟨rfl, rfl⟩
      · rw [stepAlert_green_count s hn hc] at hev
        cases hev

/-- Witness for the amended C3 at concrete firing states. -/
theorem alert_counters_after_fire_witness :
    ((stepAlert ⟨1, 0, false⟩ "red").1.consecutive_green = 0 ∧
      (stepAlert ⟨1, 0, false⟩ "red").1.consecutive_red = 1 + 1 ∧
      DOWN_THRESHOLD ≤ (stepAlert ⟨1, 0, false⟩ "red").1.consecutive_red) ∧
    ((stepAlert ⟨0, 2, true⟩ "green").1.consecutive_red = 0 ∧
      (stepAlert ⟨0, 2, true⟩ "green").1.consecutive_green = 0) :=
  ⟨(alert_counters_after_fire ⟨1, 0, false⟩).1 (by decide),
    (alert_counters_after_fire ⟨0, 2, true⟩).2 (by decide)⟩

theorem runAlertHL_cons (s : ModelAlertState) (x : HealthLevel)
    (w : List HealthLevel) :
    runAlertHL s (x :: w) = runAlertHL (stepAlertHL s x).1 w := by
  simp [runAlertHL, runAlert, stepAlertHL]

theorem runAlertHL_degraded_skip (s : ModelAlertState) (k : Nat)
    (w : List HealthLevel) :
    runAlertHL s (List.replicate k HealthLevel.degraded ++ w)
      = runAlertHL s w := by
  induction k generalizing s with
  | zero => simp
  | succ n ih =>
    rw [List.replicate_succ, List.cons_append, runAlertHL_cons,
      show stepAlertHL s HealthLevel.degraded = (s, none) from
        stepAlert_neutral s "yellow" (by decide) (by decide)]
    exact ih s

/-- C6: a Degraded or Unknown (neutral) sample leaves the whole alert state
unchanged and raises no event, in every current state; consequently any
number of Degraded samples inserted between two Down samples yields the same
state as feeding the two Down samples consecutively (the down-counter is not
reset). -/
theorem neutral_samples_inert :
    (∀ (s : ModelAlertState) (l : HealthLevel),
      l = HealthLevel.degraded ∨ l = HealthLevel.unknown →
      stepAlertHL s l = (s, none)) ∧
    (∀ (s : ModelAlertState) (k : Nat),
      runAlertHL s ([HealthLevel.down] ++
          List.replicate k HealthLevel.degraded ++ [HealthLevel.down])
        = runAlertHL s [HealthLevel.down, HealthLevel.down]) := by
  constructor
  · rintro s l (rfl | rfl)
    · exact stepAlert_neutral s "yellow" (by decide) (by decide)
    · exact stepAlert_neutral s "unknown" (by decide) (by decide)
  · intro s k
    rw [show [HealthLevel.down] ++
        List.replicate k HealthLevel.degraded ++ [HealthLevel.down]
        = HealthLevel.down ::
          (List.replicate k HealthLevel.degraded ++ [HealthLevel.down]) from rfl,
      runAlertHL_cons, runAlertHL_degraded_skip]
    rfl

/-- Witness for C6: a concrete neutral sample is inert, and four Degraded
samples between two Downs are transparent. -/
theorem neutral_samples_inert_witness :
    stepAlertHL ModelAlertState.initial HealthLevel.degraded
        = (ModelAlertState.initial, none) ∧
    runAlertHL ModelAlertState.initial ([HealthLevel.down] ++
        List.replicate 4 HealthLevel.degraded ++ [HealthLevel.down])
      = runAlertHL ModelAlertState.initial
          [HealthLevel.down, HealthLevel.down] :=
  ⟨neutral_samples_inert.1 ModelAlertState.initial HealthLevel.degraded
      (Or.inl rfl),
    neutral_samples_inert.2 ModelAlertState.initial 4⟩

/-- C8: when a last-seen timestamp is recorded and the snapshot's timestamp
is not strictly newer, `add_snapshot` returns false and mutates nothing —
the resulting tracker (all buffers and the last-seen timestamp) is exactly
the one before the call. -/
theorem stale_snapshot_noop (h : StatusHistory) (status : ChubStatus)
    (t : Int) (hl : h.last_timestamp = some t)
    (hle : status.timestamp ≤ t) :
    h.add_snapshot status = (false, h) := by
  rw [StatusHistory.add_snapshot, hl]
  exact if_pos hle

/-- Witness for C8 at a concrete tracker and stale snapshot. -/
theorem stale_snapshot_noop_witness :
    StatusHistory.add_snapshot ⟨2, fun _ => none, some 5⟩ ⟨3, "green", []⟩
      = (false, ⟨2, fun _ => none, some 5⟩) :=
  stale_snapshot_noop ⟨2, fun _ => none, some 5⟩ ⟨3, "green", []⟩ 5 rfl
    (by norm_num)

/-- Folding a sequence of startup restores (calls to `load_from_list`) into a
fresh tracker of the given depth. -/
def applyRestores (cap : Nat) (rs : List (String × List String)) :
    StatusHistory :=
  rs.foldl (fun h p => h.load_from_list p.1 p.2) (StatusHistory.mk0 cap)

theorem load_from_list_frame (h : StatusHistory) (n : String)
    (hs : List String) :
    (h.load_from_list n hs).last_timestamp = h.last_timestamp ∧
    (h.load_from_list n hs).max_depth = h.max_depth := ⟨rfl, rfl⟩

theorem applyRestores_last_timestamp (cap : Nat)
    (rs : List (String × List String)) :
    (applyRestores cap rs).last_timestamp = none := by
  suffices h : ∀ (rs : List (String × List String)) (h0 : StatusHistory),
      (rs.foldl (fun h p => h.load_from_list p.1 p.2) h0).last_timestamp
        = h0.last_timestamp by
    exact h rs (StatusHistory.mk0 cap)
  intro rs
  induction rs with
  | nil => intro h0; rfl
  | cons p rest ih => intro h0; exact ih (h0.load_from_list p.1 p.2)

/-- C10: `load_from_list` appends only to the named model's buffer and leaves
the tracker's last-seen timestamp untouched; consequently, after any sequence
of restores into a fresh tracker the last-seen timestamp is still `none`, so
the first live `add_snapshot` — whatever its timestamp, even older than the
restored samples — is accepted (returns true) and ingested (the last-seen
timestamp becomes the snapshot's). -/
theorem restore_frame_first_ingest_accepted :
    (∀ (h : StatusHistory) (n : String) (hs : List String),
      (h.load_from_list n hs).last_timestamp = h.last_timestamp ∧
      ∀ e, e ≠ n → (h.load_from_list n hs).history e = h.history e) ∧
    (∀ (cap : Nat) (rs : List (String × List String)) (status : ChubStatus),
      (applyRestores cap rs).last_timestamp = none ∧
      ((applyRestores cap rs).add_snapshot status).1 = true ∧
      ((applyRestores cap rs).add_snapshot status).2.last_timestamp
        = some status.timestamp) := by
  constructor
  · intro h n hs
    refine ⟨rfl, fun e he => ?_⟩
    simp only [StatusHistory.load_from_list, if_neg he]
  · intro cap rs status
    have hl := applyRestores_last_timestamp cap rs
    refine ⟨hl, ?_, ?_⟩ <;>
      simp only [StatusHistory.add_snapshot, hl]

/-- Witness for C10: a restore into a concrete tracker leaves another
model's buffer untouched, and after a concrete restore sequence a snapshot
with an old timestamp is still accepted. -/
theorem restore_frame_first_ingest_accepted_witness :
    (StatusHistory.load_from_list ⟨2, fun _ => none, some 4⟩ "soji"
        ["green"]).history "asha" = none ∧
    ((applyRestores 10 [("asha", ["red", "green"])]).add_snapshot
        ⟨(-100), "green", []⟩).1 = true :=
  ⟨(restore_frame_first_ingest_accepted.1 ⟨2, fun _ => none, some 4⟩ "soji"
      ["green"]).2 "asha" (by decide),
    (restore_frame_first_ingest_accepted.2 10 [("asha", ["red", "green"])]
      ⟨(-100), "green", []⟩).2.1⟩

theorem dispatchNotifications_down_batched (downs recs : List String) :
    (dispatchNotifications downs recs).countP GuildNotification.isDown
        = (if downs = [] then 0 else 1) ∧
    ∀ names, GuildNotification.down names ∈ dispatchNotifications downs recs →
      names = downs := by
  by_cases hd : downs = [] <;> by_cases hr : recs = [] <;>
    simp [dispatchNotifications, hd, hr, List.countP_cons,
      GuildNotification.isDown]

theorem dispatchNotifications_recovered_batched (downs recs : List String) :
    (dispatchNotifications downs recs).countP GuildNotification.isRecovered
        = (if recs = [] then 0 else 1) ∧
    ∀ names,
      GuildNotification.recovered names ∈ dispatchNotifications downs recs →
      names = recs := by
  by_cases hd : downs = [] <;> by_cases hr : recs = [] <;>
    simp [dispatchNotifications, hd, hr, List.countP_cons,
      GuildNotification.isRecovered]

/-- C4: within one cycle for one guild, the per-model loop first collects all
models that newly cross the down threshold into `models_now_down` and all
newly recovered models into `models_now_recovered`, and only then is the
external dispatch invoked, with at most one batched `EntityDown` notification
whose name list is exactly the collected down batch, and likewise at most one
batched `EntityRecovered` notification whose name list is exactly the
collected recovery batch.  Concretely, two models both crossing the down
threshold in the same cycle yield exactly one `EntityDown` notification
listing both names, and two models both completing recovery in the same cycle
yield exactly one `EntityRecovered` notification listing both names. -/
theorem notifications_batched_per_cycle :
    (∀ (states : String → ModelAlertState) (models : List ModelStatus),
      (dispatchNotifications (processSnapshot states models).2.1
            (processSnapshot states models).2.2).countP
          GuildNotification.isDown
        = (if (processSnapshot states models).2.1 = [] then 0 else 1) ∧
      (∀ names,
        GuildNotification.down names ∈
          dispatchNotifications (processSnapshot states models).2.1
            (processSnapshot states models).2.2 →
        names = (processSnapshot states models).2.1) ∧
      (dispatchNotifications (processSnapshot states models).2.1
            (processSnapshot states models).2.2).countP
          GuildNotification.isRecovered
        = (if (processSnapshot states models).2.2 = [] then 0 else 1) ∧
      ∀ names,
        GuildNotification.recovered names ∈
          dispatchNotifications (processSnapshot states models).2.1
            (processSnapshot states models).2.2 →
        names = (processSnapshot states models).2.2) ∧
    ((processSnapshot (fun _ => ⟨1, 0, false⟩)
        [⟨"asha", "red", 0, 0, 0⟩, ⟨"soji", "red", 0, 0, 0⟩]).2.1
      = ["asha", "soji"] ∧
    dispatchNotifications
        (processSnapshot (fun _ => ⟨1, 0, false⟩)
          [⟨"asha", "red", 0, 0, 0⟩, ⟨"soji", "red", 0, 0, 0⟩]).2.1
        (processSnapshot (fun _ => ⟨1, 0, false⟩)
          [⟨"asha", "red", 0, 0, 0⟩, ⟨"soji", "red", 0, 0, 0⟩]).2.2
      = [GuildNotification.down ["asha", "soji"]]) ∧
    ((processSnapshot (fun _ => ⟨0, 2, true⟩)
        [⟨"asha", "green", 0, 0, 0⟩, ⟨"soji", "green", 0, 0, 0⟩]).2.2
      = ["asha", "soji"] ∧
    dispatchNotifications
        (processSnapshot (fun _ => ⟨0, 2, true⟩)
          [⟨"asha", "green", 0, 0, 0⟩, ⟨"soji", "green", 0, 0, 0⟩]).2.1
        (processSnapshot (fun _ => ⟨0, 2, true⟩)
          [⟨"asha", "green", 0, 0, 0⟩, ⟨"soji", "green", 0, 0, 0⟩]).2.2
      = [GuildNotification.recovered ["asha", "soji"]]) := by
  refine ⟨fun states models =>
      ⟨(dispatchNotifications_down_batched _ _).1,
        (dispatchNotifications_down_batched _ _).2,
        (dispatchNotifications_recovered_batched _ _).1,
        (dispatchNotifications_recovered_batched _ _).2⟩,
    ⟨by decide, by decide⟩, by decide, by decide⟩

/-- Witness for C4: the down and recovered membership hypotheses discharged
at concrete two-model cycles. -/
theorem notifications_batched_per_cycle_witness :
    ["asha", "soji"]
      = (processSnapshot (fun _ => ⟨1, 0, false⟩)
          [⟨"asha", "red", 0, 0, 0⟩, ⟨"soji", "red", 0, 0, 0⟩]).2.1 ∧
    ["asha", "soji"]
      = (processSnapshot (fun _ => ⟨0, 2, true⟩)
          [⟨"asha", "green", 0, 0, 0⟩, ⟨"soji", "green", 0, 0, 0⟩]).2.2 :=
  ⟨(notifications_batched_per_cycle.1 (fun _ => ⟨1, 0, false⟩)
        [⟨"asha", "red", 0, 0, 0⟩, ⟨"soji", "red", 0, 0, 0⟩]).2.1
      ["asha", "soji"] (by decide),
    (notifications_batched_per_cycle.1 (fun _ => ⟨0, 2, true⟩)
        [⟨"asha", "green", 0, 0, 0⟩, ⟨"soji", "green", 0, 0, 0⟩]).2.2.2
      ["asha", "soji"] (by decide)⟩

theorem pushMax_length (cap : Nat) (l : List String) (x : String) :
    (pushMax cap l x).length ≤ cap := by
  simp only [pushMax, List.length_drop, List.length_append,
    List.length_singleton]
  omega

theorem foldl_pushMax_length (cap : Nat) (l : List String)
    (init : List String) (h : init.length ≤ cap) :
    (l.foldl (pushMax cap) init).length ≤ cap := by
  induction l generalizing init with
  | nil => exact h
  | cons x rest ih => exact ih (pushMax cap init x) (pushMax_length cap init x)

theorem foldl_pushMax_drop (cap : Nat) (l : List String) :
    l.foldl (pushMax cap) [] = l.drop (l.length - cap) := by
  induction l using List.reverseRecOn with
  | nil => simp
  | append_singleton l x ih =>
    rw [List.foldl_append, List.foldl_cons, List.foldl_nil, ih, pushMax]
    rcases Nat.lt_or_ge l.length cap with hc | hc
    · have h1 : l.length - cap = 0 := by omega
      have h2 : (l.drop 0).length + 1 - cap = 0 := by simp; omega
      have h3 : (l ++ [x]).length - cap = 0 := by simp; omega
      rw [h1, h2, h3]
      simp
    · have h1 : (l.drop (l.length - cap)).length = cap := by simp; omega
      rcases Nat.eq_zero_or_pos cap with hz | hp
      · subst hz
        simp [List.drop_eq_nil_of_le]
      · have h2 : ((l.drop (l.length - cap)) ++ [x]).drop (cap + 1 - cap)
            = (l.drop (l.length - cap)).drop 1 ++ [x] := by
          rw [show cap + 1 - cap = 1 from by omega]
          exact List.drop_append_of_le_length (by omega)
        have h4 : (l ++ [x]).length - cap = l.length + 1 - cap := by simp
        rw [h1, h2, List.drop_drop, h4,
          List.drop_append_of_le_length
            (show l.length + 1 - cap ≤ l.length from by omega),
          show l.length - cap + 1 = l.length + 1 - cap from by omega]

theorem ingestModels_entity (cap : Nat) (models : List ModelStatus)
    (hist : String → Option (List String)) (e : String) :
    ((ingestModels cap hist models) e).getD []
      = (entityHealths e models).foldl (pushMax cap) ((hist e).getD []) := by
  induction models generalizing hist with
  | nil => rfl
  | cons m rest ih =>
    rw [show ingestModels cap hist (m :: rest)
        = ingestModels cap (addModelHealth cap hist m.name m.health) rest
      from rfl, ih]
    by_cases hm : m.name = e
    · have he1 : (addModelHealth cap hist m.name m.health e).getD []
          = pushMax cap ((hist e).getD []) m.health := by
        simp [addModelHealth, hm.symm, ← hm]
      rw [he1, show entityHealths e (m :: rest)
          = m.health :: entityHealths e rest from by
        simp [entityHealths, hm], List.foldl_cons]
    · have he1 : (addModelHealth cap hist m.name m.health e).getD []
          = (hist e).getD [] := by
        simp only [addModelHealth]
        rw [if_neg (fun h : e = m.name => hm h.symm)]
      rw [he1, show entityHealths e (m :: rest) = entityHealths e rest from by
        simp [entityHealths, hm]]

theorem runIngest_entity (sts : List ChubStatus) (h : StatusHistory)
    (hacc : acceptsAll h.last_timestamp sts = true) (e : String) :
    ((runIngest h sts).history e).getD []
        = (entityHealthsAll e sts).foldl (pushMax h.max_depth)
            ((h.history e).getD []) ∧
    (runIngest h sts).max_depth = h.max_depth := by
  induction sts generalizing h with
  | nil => exact ⟨rfl, rfl⟩
  | cons st rest ih =>
    have hstep : h.add_snapshot st
        = (true, ⟨h.max_depth, ingestModels h.max_depth h.history st.models,
            some st.timestamp⟩) ∧
        acceptsAll (some st.timestamp) rest = true := by
      cases hlt : h.last_timestamp with
      | none =>
        rw [hlt] at hacc
        exact ⟨by rw [StatusHistory.add_snapshot, hlt], hacc⟩
      | some t =>
        rw [hlt] at hacc
        simp only [acceptsAll, Bool.and_eq_true, decide_eq_true_eq] at hacc
        obtain ⟨ht, hrest⟩ := hacc
        refine ⟨?_, hrest⟩
        simp only [StatusHistory.add_snapshot, hlt]
        rw [if_neg (show ¬ st.timestamp ≤ t from by omega)]
    have hrun : runIngest h (st :: rest)
        = runIngest ⟨h.max_depth, ingestModels h.max_depth h.history st.models,
            some st.timestamp⟩ rest := by
      rw [runIngest, List.foldl_cons, hstep.1]
      rfl
    have hih := ih ⟨h.max_depth, ingestModels h.max_depth h.history st.models,
      some st.timestamp⟩ hstep.2 
    rw [hrun, hih.1, show entityHealthsAll e (st :: rest)
        = entityHealths e st.models ++ entityHealthsAll e rest from by
      simp [entityHealthsAll], List.foldl_append]
    exact ⟨by rw [ingestModels_entity], hih.2⟩

theorem applyHistOps_bounded (ops : List HistOp) (h : StatusHistory)
    (hinv : ∀ e, ((h.history e).getD []).length ≤ h.max_depth) :
    (∀ e, (((applyHistOps h ops).history e).getD []).length
        ≤ (applyHistOps h ops).max_depth) ∧
    (applyHistOps h ops).max_depth = h.max_depth := by
  induction ops generalizing h with
  | nil => exact ⟨hinv, rfl⟩
  | cons op rest ih =>
    have hstep : (∀ e, (((applyHistOp h op).history e).getD []).length
        ≤ (applyHistOp h op).max_depth) ∧
        (applyHistOp h op).max_depth = h.max_depth := by
      cases op with
      | ingest status =>
        cases hlt : h.last_timestamp with
        | none =>
          refine ⟨fun e => ?_, ?_⟩ <;>
            simp only [applyHistOp, StatusHistory.add_snapshot, hlt]
          · rw [ingestModels_entity]
            exact foldl_pushMax_length _ _ _ (hinv e)
        | some t =>
          by_cases hle : status.timestamp ≤ t
          · have heq : applyHistOp h (HistOp.ingest status) = h := by
              simp only [applyHistOp, StatusHistory.add_snapshot, hlt,
                if_pos hle]
            rw [heq]
            exact ⟨hinv, rfl⟩
          · refine ⟨fun e => ?_, ?_⟩ <;>
              simp only [applyHistOp, StatusHistory.add_snapshot, hlt,
                if_neg hle]
            · rw [ingestModels_entity]
              exact foldl_pushMax_length _ _ _ (hinv e)
      | restore n hs =>
        refine ⟨fun e => ?_, rfl⟩
        simp only [applyHistOp, StatusHistory.load_from_list]
        by_cases he : e = n
        · rw [if_pos he]
          exact foldl_pushMax_length _ _ _ (hinv n)
        · rw [if_neg he]
          exact hinv e
    have hih := ih (applyHistOp h op) hstep.1
    rw [show applyHistOps h (op :: rest)
        = applyHistOps (applyHistOp h op) rest from rfl]
    exact ⟨hih.1, hih.2.trans hstep.2⟩

/-- C7: (a) after any sequence of live ingestions and startup restores into a
fresh tracker of capacity `cap`, every model's buffer holds at most `cap`
entries; (b) after a sequence of accepted ingestions (each timestamp strictly
newer than the previous), a model's buffer contains exactly the last `cap` of
the samples ingested for it, in arrival order, oldest first. -/
theorem history_buffer_bounded_fifo :
    (∀ (cap : Nat) (ops : List HistOp) (e : String),
      (((applyHistOps (StatusHistory.mk0 cap) ops).history e).getD []).length
        ≤ cap) ∧
    (∀ (cap : Nat) (sts : List ChubStatus) (e : String),
      acceptsAll none sts = true →
      ((runIngest (StatusHistory.mk0 cap) sts).history e).getD []
        = (entityHealthsAll e sts).drop
            ((entityHealthsAll e sts).length - cap)) := by
  constructor
  · intro cap ops e
    have h := applyHistOps_bounded ops (StatusHistory.mk0 cap)
      (fun e => by simp [StatusHistory.mk0])
    exact le_of_le_of_eq (h.1 e) h.2
  · intro cap sts e hacc
    have h := runIngest_entity sts (StatusHistory.mk0 cap) hacc e
    rw [h.1]
    exact foldl_pushMax_drop cap (entityHealthsAll e sts)

/-- Witness for C7 part (b): three accepted single-model snapshots into a
capacity-2 tracker leave exactly the last two samples, oldest first. -/
theorem history_buffer_bounded_fifo_witness :
    ((runIngest (StatusHistory.mk0 2)
        [⟨1, "green", [⟨"asha", "green", 0, 0, 0⟩]⟩,
         ⟨2, "green", [⟨"asha", "yellow", 0, 0, 0⟩]⟩,
         ⟨3, "red", [⟨"asha", "red", 0, 0, 0⟩]⟩]).history "asha").getD []
      = (entityHealthsAll "asha"
          [⟨1, "green", [⟨"asha", "green", 0, 0, 0⟩]⟩,
           ⟨2, "green", [⟨"asha", "yellow", 0, 0, 0⟩]⟩,
           ⟨3, "red", [⟨"asha", "red", 0, 0, 0⟩]⟩]).drop
          ((entityHealthsAll "asha"
            [⟨1, "green", [⟨"asha", "green", 0, 0, 0⟩]⟩,
             ⟨2, "green", [⟨"asha", "yellow", 0, 0, 0⟩]⟩,
             ⟨3, "red", [⟨"asha", "red", 0, 0, 0⟩]⟩]).length - 2) :=
  history_buffer_bounded_fifo.2 2
    [⟨1, "green", [⟨"asha", "green", 0, 0, 0⟩]⟩,
     ⟨2, "green", [⟨"asha", "yellow", 0, 0, 0⟩]⟩,
     ⟨3, "red", [⟨"asha", "red", 0, 0, 0⟩]⟩] "asha" (by decide)

theorem parse_models_fold (latest : RawEntry) (names : List String)
    (acc : List ModelStatus) :
    ((names.foldl (fun acc name =>
        match latest.inference name with
        | some (some md) =>
          acc ++ [⟨name, md.health.getD "unknown", md.avg.getD 0,
            ratePct md.timeout, ratePct md.fail⟩]
        | _ => acc) acc).map ModelStatus.name)
      = acc.map ModelStatus.name
        ++ names.filter (fun n => hasDictEntry (latest.inference n)) := by
  induction names generalizing acc with
  | nil => simp
  | cons n rest ih =>
    rw [List.foldl_cons]
    cases hv : latest.inference n with
    | none =>
      simp only [hv]
      rw [ih, List.filter_cons]
      simp [hasDictEntry, hv]
    | some v =>
      cases v with
      | none =>
        simp only [hv]
        rw [ih, List.filter_cons]
        simp [hasDictEntry, hv]
      | some md =>
        simp only [hv]
        rw [ih, List.filter_cons]
        simp [hasDictEntry, hv]

/-- C9: `_parse_status` returns `None` exactly when the payload's history
array is absent or empty (in the typed embedding no other failure can make
the snapshot unusable); when at least one history record exists, an absent or
unparsable `updated` field is a recovery, not a failure — the parser falls
back to the current time and still returns a snapshot — and the emitted
models are exactly the configured `MODEL_ORDER` entries present in the
payload with a dict value, so a missing entity is skipped rather than
failing the parse. -/
theorem parse_status_error_handling :
    (∀ (parseTs : String → Option Int) (now : Int) (data : RawData),
      parseStatus parseTs now data = none ↔ data.history.getD [] = []) ∧
    (∀ (parseTs : String → Option Int) (now : Int) (data : RawData)
        (latest : RawEntry) (rest : List RawEntry),
      data.history.getD [] = latest :: rest →
      (parseTs ((latest.updated.getD "").replace "Z" "+00:00") = none →
        ∃ st, parseStatus parseTs now data = some st ∧ st.timestamp = now) ∧
      (∀ st, parseStatus parseTs now data = some st →
        st.models.map ModelStatus.name
          = MODEL_ORDER.filter (fun n => hasDictEntry (latest.inference n)))) := by
  constructor
  · intro parseTs now data
    cases hh : data.history.getD [] with
    | nil => simp [parseStatus, hh]
    | cons latest rest => simp [parseStatus, hh]
  · intro parseTs now data latest rest hh
    constructor
    · intro hts
      refine ⟨⟨now, latest.api.getD "unknown",
        MODEL_ORDER.foldl (fun acc name =>
          match latest.inference name with
          | some (some md) =>
            acc ++ [⟨name, md.health.getD "unknown", md.avg.getD 0,
              ratePct md.timeout, ratePct md.fail⟩]
          | _ => acc) []⟩, ?_, rfl⟩
      simp only [parseStatus, hh, hts]
    · intro st hst
      rw [parseStatus, hh] at hst
      have hmodels := congrArg ChubStatus.models (Option.some.inj hst)
      rw [← hmodels]
      exact (parse_models_fold latest MODEL_ORDER []).symm ▸
        parse_models_fold latest MODEL_ORDER []

/-- Witness for C9: a concrete payload whose single history record has an
unparsable timestamp still parses, with the fallback time, and the model
map skips the missing entries. -/
theorem parse_status_error_handling_witness :
    ∃ st, parseStatus (fun _ => none) 42
        ⟨some [⟨none, some "green", fun _ => none⟩]⟩ = some st ∧
      st.timestamp = 42 :=
  (parse_status_error_handling.2 (fun _ => none) 42
      ⟨some [⟨none, some "green", fun _ => none⟩]⟩
      ⟨none, some "green", fun _ => none⟩ [] rfl).1 rfl

/-- A sample is non-neutral when the alert machine reacts to it: `Down`
(red) or `Healthy` (green).  Degraded and Unknown are neutral. -/
def nonNeutral (l : HealthLevel) : Bool :=
  match l with
  | .down => true
  | .healthy => true
  | _ => false

/-- The subsequence of non-neutral samples, in order.  Because neutral
samples leave the machine state untouched, the machine's behaviour depends
only on this subsequence. -/
def filterNonNeutral (w : List HealthLevel) : List HealthLevel :=
  w.filter nonNeutral

/-- Number of leading occurrences of `x` at the front of a list. -/
def leadCount (x : HealthLevel) : List HealthLevel → Nat
  | [] => 0
  | y :: ys => if y = x then leadCount x ys + 1 else 0

/-- Number of trailing occurrences of `x` at the back of a list. -/
def trailCount (x : HealthLevel) (l : List HealthLevel) : Nat :=
  leadCount x l.reverse

/-- `containsRun p l` holds when `p` occurs contiguously inside `l`. -/
def containsRun (p l : List HealthLevel) : Prop :=
  ∃ s t, l = s ++ p ++ t

/-- The shape characterising an active alert: the (filtered) sample sequence
contains a run of `DOWN_THRESHOLD` consecutive Down samples not yet followed
by a run of `RECOVERY_THRESHOLD` consecutive Healthy samples. -/
def hasActiveAlertShape (f : List HealthLevel) : Prop :=
  ∃ u v, f = u ++ List.replicate DOWN_THRESHOLD HealthLevel.down ++ v ∧
    ¬ containsRun (List.replicate RECOVERY_THRESHOLD HealthLevel.healthy) v

theorem replicate_down_thr :
    List.replicate DOWN_THRESHOLD HealthLevel.down
      = [HealthLevel.down, HealthLevel.down] := rfl

theorem replicate_healthy_thr :
    List.replicate RECOVERY_THRESHOLD HealthLevel.healthy
      = [HealthLevel.healthy, HealthLevel.healthy, HealthLevel.healthy] := rfl

theorem trailCount_append_same (x : HealthLevel) (l : List HealthLevel) :
    trailCount x (l ++ [x]) = trailCount x l + 1 := by
  simp [trailCount, List.reverse_append, leadCount]

theorem trailCount_append_diff (x y : HealthLevel) (l : List HealthLevel)
    (h : y ≠ x) :
    trailCount x (l ++ [y]) = 0 := by
  simp [trailCount, List.reverse_append, leadCount, h]

theorem leadCount_cons_same (x : HealthLevel) (m : List HealthLevel) :
    leadCount x (x :: m) = leadCount x m + 1 := by
  simp [leadCount]

theorem leadCount_cons_diff (x y : HealthLevel) (m : List HealthLevel)
    (h : y ≠ x) : leadCount x (y :: m) = 0 := by
  simp [leadCount, h]

theorem leadCount_ge_iff (x : HealthLevel) (n : Nat) (m : List HealthLevel) :
    n ≤ leadCount x m ↔ ∃ t, m = List.replicate n x ++ t := by
  induction n generalizing m with
  | zero => simp
  | succ k ih =>
    cases m with
    | nil =>
      constructor
      · intro h
        simp [leadCount] at h
      · rintro ⟨t, ht⟩
        rw [List.replicate_succ] at ht
        cases ht
    | cons y m' =>
      by_cases hy : y = x
      · subst hy
        rw [leadCount_cons_same]
        constructor
        · intro h
          obtain ⟨t, ht⟩ := (ih m').mp (by omega)
          exact ⟨t, by rw [List.replicate_succ, ht]; rfl⟩
        · rintro ⟨t, ht⟩
          rw [List.replicate_succ] at ht
          injection ht with h1 h2
          have := (ih m').mpr ⟨t, h2⟩
          omega
      · rw [leadCount_cons_diff x y m' hy]
        constructor
        · intro h
          omega
        · rintro ⟨t, ht⟩
          rw [List.replicate_succ] at ht
          injection ht with h1 h2
          exact absurd h1 hy

theorem trailCount_ge_iff (x : HealthLevel) (n : Nat) (l : List HealthLevel) :
    n ≤ trailCount x l ↔ ∃ s, l = s ++ List.replicate n x := by
  rw [trailCount, leadCount_ge_iff]
  constructor
  · rintro ⟨t, ht⟩
    refine ⟨t.reverse, ?_⟩
    rw [← List.reverse_reverse l, ht]
    simp
  · rintro ⟨s, rfl⟩
    exact ⟨s.reverse, by simp⟩

theorem leadCount_append_stop (x d : HealthLevel) (h : d ≠ x)
    (a b : List HealthLevel) :
    leadCount x (a ++ d :: b) = leadCount x a := by
  induction a with
  | nil => simp [leadCount, h]
  | cons z a' ih => simp [leadCount, ih]

theorem trailCount_mid (x d : HealthLevel) (h : d ≠ x)
    (u v : List HealthLevel) :
    trailCount x (u ++ [d] ++ v) = trailCount x v := by
  rw [trailCount, show (u ++ [d] ++ v).reverse
      = v.reverse ++ d :: u.reverse from by simp,
    leadCount_append_stop x d h]
  rfl

theorem append_singleton_inj {α : Type} {a b : List α} {x y : α}
    (h : a ++ [x] = b ++ [y]) : a = b ∧ x = y := by
  have h2 := congrArg List.reverse h
  simp only [List.reverse_append, List.reverse_singleton,
    List.singleton_append] at h2
  injection h2 with h3 h4
  refine ⟨?_, h3⟩
  rw [← List.reverse_reverse a, h4, List.reverse_reverse]

theorem containsRun_mono (p v : List HealthLevel) (y : HealthLevel)
    (h : containsRun p v) : containsRun p (v ++ [y]) := by
  obtain ⟨s, t, rfl⟩ := h
  exact ⟨s, t ++ [y], by simp⟩

theorem containsRun_append_elim (p l : List HealthLevel) (y : HealthLevel)
    (h : containsRun p (l ++ [y])) :
    containsRun p l ∨ ∃ s, l ++ [y] = s ++ p := by
  obtain ⟨s, t, ht⟩ := h
  rcases List.eq_nil_or_concat t with rfl | ⟨t', z, rfl⟩
  · right
    exact ⟨s, by simpa using ht⟩
  · left
    have ht2 : l ++ [y] = (s ++ p ++ t') ++ [z] := by
      simpa [List.append_assoc] using ht
    obtain ⟨h1, -⟩ := append_singleton_inj ht2
    exact ⟨s, t', h1⟩

theorem hasActiveAlertShape_nil : ¬ hasActiveAlertShape [] := by
  rintro ⟨u, v, h, -⟩
  have hlen := congrArg List.length h
  simp [replicate_down_thr] at hlen
  omega

theorem hasActiveAlertShape_down (f : List HealthLevel) :
    hasActiveAlertShape (f ++ [HealthLevel.down]) ↔
      hasActiveAlertShape f ∨ 1 ≤ trailCount HealthLevel.down f := by
  constructor
  · rintro ⟨u, v, hf, hv⟩
    rw [replicate_down_thr] at hf
    rcases List.eq_nil_or_concat v with rfl | ⟨v', y, rfl⟩
    · right
      have hf2 : f ++ [HealthLevel.down]
          = (u ++ [HealthLevel.down]) ++ [HealthLevel.down] := by
        simpa [List.append_assoc] using hf
      obtain ⟨h1, -⟩ := append_singleton_inj hf2
      rw [h1, trailCount_append_same]
      omega
    · left
      simp only [List.concat_eq_append] at hf hv
      have hf2 : f ++ [HealthLevel.down]
          = (u ++ [HealthLevel.down, HealthLevel.down] ++ v') ++ [y] := by
        simpa [List.append_assoc] using hf
      obtain ⟨h1, -⟩ := append_singleton_inj hf2
      exact ⟨u, v', by rw [replicate_down_thr]; exact h1,
        fun hc => hv (containsRun_mono _ _ _ hc)⟩
  · rintro (⟨u, v, hf, hv⟩ | htr)
    · refine ⟨u, v ++ [HealthLevel.down], by rw [hf]; simp, ?_⟩
      intro hc
      rcases containsRun_append_elim _ _ _ hc with hc2 | ⟨s, hs⟩
      · exact hv hc2
      · rw [replicate_healthy_thr] at hs
        have hs2 : v ++ [HealthLevel.down]
            = (s ++ [HealthLevel.healthy, HealthLevel.healthy])
                ++ [HealthLevel.healthy] := by
          simpa [List.append_assoc] using hs
        obtain ⟨-, h2⟩ := append_singleton_inj hs2
        cases h2
    · obtain ⟨s, hs⟩ := (trailCount_ge_iff HealthLevel.down 1 f).mp htr
      refine ⟨s, [], ?_, ?_⟩
      · rw [hs, replicate_down_thr]
        simp [List.replicate]
      · rintro ⟨a, b, hab⟩
        have hlen := congrArg List.length hab
        simp [replicate_healthy_thr] at hlen
        omega

theorem hasActiveAlertShape_healthy (f : List HealthLevel) :
    hasActiveAlertShape (f ++ [HealthLevel.healthy]) ↔
      hasActiveAlertShape f ∧ trailCount HealthLevel.healthy f < 2 := by
  constructor
  · rintro ⟨u, v, hf, hv⟩
    rw [replicate_down_thr] at hf
    rcases List.eq_nil_or_concat v with rfl | ⟨v', y, rfl⟩
    · have hf2 : f ++ [HealthLevel.healthy]
          = (u ++ [HealthLevel.down]) ++ [HealthLevel.down] := by
        simpa [List.append_assoc] using hf
      obtain ⟨-, h2⟩ := append_singleton_inj hf2
      cases h2
    · simp only [List.concat_eq_append] at hf hv
      have hf2 : f ++ [HealthLevel.healthy]
          = (u ++ [HealthLevel.down, HealthLevel.down] ++ v') ++ [y] := by
        simpa [List.append_assoc] using hf
      obtain ⟨h1, h2⟩ := append_singleton_inj hf2
      have hfv : trailCount HealthLevel.healthy f
          = trailCount HealthLevel.healthy v' := by
        rw [show f = (u ++ [HealthLevel.down]) ++ [HealthLevel.down] ++ v' from
          by rw [h1]; simp]
        exact trailCount_mid HealthLevel.healthy HealthLevel.down
          (by decide) _ _
      refine ⟨⟨u, v', by rw [replicate_down_thr]; exact h1,
        fun hc => hv (containsRun_mono _ _ _ hc)⟩, ?_⟩
      rw [hfv]
      by_contra hge
      push_neg at hge
      obtain ⟨s, hs⟩ := (trailCount_ge_iff HealthLevel.healthy 2 v').mp hge
      apply hv
      refine ⟨s, [], ?_⟩
      rw [hs, ← h2, replicate_healthy_thr]
      simp [List.replicate]
  · rintro ⟨⟨u, v, hf, hv⟩, hlt⟩
    refine ⟨u, v ++ [HealthLevel.healthy], by rw [hf]; simp, ?_⟩
    intro hc
    rcases containsRun_append_elim _ _ _ hc with hc2 | ⟨s, hs⟩
    · exact hv hc2
    · rw [replicate_healthy_thr] at hs
      have hs2 : v ++ [HealthLevel.healthy]
          = (s ++ [HealthLevel.healthy, HealthLevel.healthy])
              ++ [HealthLevel.healthy] := by
        simpa [List.append_assoc] using hs
      obtain ⟨h1, -⟩ := append_singleton_inj hs2
      have htv : 2 ≤ trailCount HealthLevel.healthy v :=
        (trailCount_ge_iff HealthLevel.healthy 2 v).mpr
          ⟨s, by rw [h1]; rfl⟩
      have hfv : trailCount HealthLevel.healthy f
          = trailCount HealthLevel.healthy v := by
        rw [show f = (u ++ [HealthLevel.down]) ++ [HealthLevel.down] ++ v from
          by rw [hf, replicate_down_thr]; simp]
        exact trailCount_mid HealthLevel.healthy HealthLevel.down
          (by decide) _ _
      omega

theorem alert_inv_step_down (s : ModelAlertState) (f : List HealthLevel)
    (ihr : s.consecutive_red = trailCount HealthLevel.down f)
    (iha : s.is_notified = true ↔ hasActiveAlertShape f) :
    (stepAlert s "red").1.consecutive_red
        = trailCount HealthLevel.down (f ++ [HealthLevel.down]) ∧
    (stepAlert s "red").1.consecutive_green
        = (if (stepAlert s "red").1.is_notified
            then trailCount HealthLevel.healthy (f ++ [HealthLevel.down])
            else 0) ∧
    ((stepAlert s "red").1.is_notified = true ↔
      hasActiveAlertShape (f ++ [HealthLevel.down])) := by
  have htH : trailCount HealthLevel.healthy (f ++ [HealthLevel.down]) = 0 :=
    trailCount_append_diff _ _ _ (by decide)
  have htD : trailCount HealthLevel.down (f ++ [HealthLevel.down])
      = trailCount HealthLevel.down f + 1 := trailCount_append_same _ _
  by_cases hc : DOWN_THRESHOLD ≤ s.consecutive_red + 1 ∧ s.is_notified = false
  · rw [stepAlert_red_fire s hc]
    refine ⟨by rw [htD, ihr], by rw [htH]; simp, ?_⟩
    rw [hasActiveAlertShape_down]
    constructor
    · intro _
      right
      have h2 := hc.1
      rw [show DOWN_THRESHOLD = 2 from rfl] at h2
      rw [← ihr]
      omega
    · intro _
      rfl
  · rw [stepAlert_red_nofire s hc]
    refine ⟨by rw [htD, ihr], by rw [htH]; simp, ?_⟩
    rw [hasActiveAlertShape_down]
    show s.is_notified = true ↔ _
    cases hn : s.is_notified with
    | true =>
      constructor
      · intro _
        exact Or.inl (iha.mp hn)
      · intro _
        rfl
    | false =>
      have hr0 : s.consecutive_red = 0 := by
        by_contra h0
        exact hc ⟨by rw [show DOWN_THRESHOLD = 2 from rfl]; omega, hn⟩
      constructor
      · intro h
        exact Bool.noConfusion h
      · rintro (hAct | htr)
        · have h2 := iha.mpr hAct
          rw [hn] at h2
          exact Bool.noConfusion h2
        · rw [ihr] at hr0
          omega

theorem alert_inv_step_healthy (s : ModelAlertState) (f : List HealthLevel)
    (ihg : s.consecutive_green
      = if s.is_notified then trailCount HealthLevel.healthy f else 0)
    (iha : s.is_notified = true ↔ hasActiveAlertShape f) :
    (stepAlert s "green").1.consecutive_red
        = trailCount HealthLevel.down (f ++ [HealthLevel.healthy]) ∧
    (stepAlert s "green").1.consecutive_green
        = (if (stepAlert s "green").1.is_notified
            then trailCount HealthLevel.healthy (f ++ [HealthLevel.healthy])
            else 0) ∧
    ((stepAlert s "green").1.is_notified = true ↔
      hasActiveAlertShape (f ++ [HealthLevel.healthy])) := by
  have htD : trailCount HealthLevel.down (f ++ [HealthLevel.healthy]) = 0 :=
    trailCount_append_diff _ _ _ (by decide)
  have htH : trailCount HealthLevel.healthy (f ++ [HealthLevel.healthy])
      = trailCount HealthLevel.healthy f + 1 := trailCount_append_same _ _
  cases hn : s.is_notified with
  | false =>
    rw [stepAlert_green_inactive s hn]
    have hg0 : s.consecutive_green = 0 := by
      rw [ihg, hn]
      simp
    refine ⟨by rw [htD], ?_, ?_⟩
    · show s.consecutive_green = if s.is_notified then _ else 0
      rw [hn, hg0]
      simp
    · show s.is_notified = true ↔ _
      rw [hasActiveAlertShape_healthy, hn]
      constructor
      · intro h
        exact Bool.noConfusion h
      · rintro ⟨hAct, -⟩
        have h2 := iha.mpr hAct
        rw [hn] at h2
        exact Bool.noConfusion h2
  | true =>
    have hg : s.consecutive_green = trailCount HealthLevel.healthy f := by
      rw [ihg, hn]
      simp
    by_cases hc : RECOVERY_THRESHOLD ≤ s.consecutive_green + 1
    · rw [stepAlert_green_fire s hn hc]
      refine ⟨by rw [htD], by simp, ?_⟩
      rw [hasActiveAlertShape_healthy]
      constructor
      · intro h
        exact Bool.noConfusion h
      · rintro ⟨-, hlt⟩
        rw [show RECOVERY_THRESHOLD = 3 from rfl] at hc
        omega
    · rw [stepAlert_green_count s hn hc]
      refine ⟨by rw [htD], ?_, ?_⟩
      · show s.consecutive_green + 1 = if s.is_notified then _ else 0
        rw [hn, htH]
        simp [hg]
      · show s.is_notified = true ↔ _
        rw [hasActiveAlertShape_healthy, hn]
        rw [show RECOVERY_THRESHOLD = 3 from rfl] at hc
        constructor
        · intro _
          exact ⟨iha.mp hn, by omega⟩
        · intro _
          rfl

theorem alert_machine_inv (w : List HealthLevel) :
    (runAlertHL ModelAlertState.initial w).consecutive_red
        = trailCount HealthLevel.down (filterNonNeutral w) ∧
    (runAlertHL ModelAlertState.initial w).consecutive_green
        = (if (runAlertHL ModelAlertState.initial w).is_notified
            then trailCount HealthLevel.healthy (filterNonNeutral w) else 0) ∧
    ((runAlertHL ModelAlertState.initial w).is_notified = true ↔
      hasActiveAlertShape (filterNonNeutral w)) := by
  induction w using List.reverseRecOn with
  | nil =>
    refine ⟨rfl, rfl, ?_⟩
    constructor
    · intro h
      exact Bool.noConfusion h
    · intro h
      exact absurd h hasActiveAlertShape_nil
  | append_singleton w x ih =>
    obtain ⟨ihr, ihg, iha⟩ := ih
    rw [runAlertHL_append]
    cases x with
    | degraded =>
      rw [show stepAlertHL (runAlertHL ModelAlertState.initial w)
            HealthLevel.degraded
          = (runAlertHL ModelAlertState.initial w, none) from
          stepAlert_neutral _ "yellow" (by decide) (by decide),
        show filterNonNeutral (w ++ [HealthLevel.degraded])
          = filterNonNeutral w from by simp [filterNonNeutral, nonNeutral]]
      exact ⟨ihr, ihg, iha⟩
    | unknown =>
      rw [show stepAlertHL (runAlertHL ModelAlertState.initial w)
            HealthLevel.unknown
          = (runAlertHL ModelAlertState.initial w, none) from
          stepAlert_neutral _ "unknown" (by decide) (by decide),
        show filterNonNeutral (w ++ [HealthLevel.unknown])
          = filterNonNeutral w from by simp [filterNonNeutral, nonNeutral]]
      exact ⟨ihr, ihg, iha⟩
    | down =>
      rw [show filterNonNeutral (w ++ [HealthLevel.down])
          = filterNonNeutral w ++ [HealthLevel.down] from by
        simp [filterNonNeutral, nonNeutral]]
      exact alert_inv_step_down _ _ ihr iha
    | healthy =>
      rw [show filterNonNeutral (w ++ [HealthLevel.healthy])
          = filterNonNeutral w ++ [HealthLevel.healthy] from by
        simp [filterNonNeutral, nonNeutral]]
      exact alert_inv_step_healthy _ _ ihg iha

/-- C1: for every finite HealthLevel sequence processed from the initial
state, the alert is active (`is_notified`, the spec's `is_active`) exactly
when the sequence of non-neutral samples (neutral Degraded/Unknown samples
are transparent to the machine) contains a run of `DOWN_THRESHOLD`
consecutive Down samples not yet followed by a run of `RECOVERY_THRESHOLD`
consecutive Healthy samples. -/
theorem alert_active_iff_recent_runs (w : List HealthLevel) :
    (runAlertHL ModelAlertState.initial w).is_notified = true ↔
      ∃ u v, filterNonNeutral w
          = u ++ List.replicate DOWN_THRESHOLD HealthLevel.down ++ v ∧
        ¬ containsRun (List.replicate RECOVERY_THRESHOLD HealthLevel.healthy)
            v :=
  (alert_machine_inv w).2.2

/-- Witness for C2: the transition-table hypotheses discharged at concrete
states — a Healthy sample on a fresh inactive state leaves the green counter
unchanged, and a Healthy sample at green count 2 while notified fires
`EntityRecovered`. -/
theorem alert_transition_table_witness :
    (stepAlertHL ⟨0, 0, false⟩ HealthLevel.healthy).1.consecutive_green
        = (0 : Nat) ∧
    (stepAlertHL ⟨0, 2, true⟩ HealthLevel.healthy).2
        = some AlertEvent.entityRecovered :=
  ⟨((alert_transition_table.2.1 ⟨0, 0, false⟩).2.1 rfl).1,
    ((alert_transition_table.2.1 ⟨0, 2, true⟩).2.2 rfl).1.mpr (by decide)⟩
